import Mathlib

/-!
Verification of the activation-addition optimization core
(`algebraic_value_editing/optimize.py`) and the metrics module
(`algebraic_value_editing/metrics.py`), via a shallow embedding.

Conventions of the embedding:
* token ids are `ℤ`, per-token losses are `ℚ` (exact arithmetic standing in
  for the float tensors; the properties checked here are structural, not
  about rounding);
* a tensor of shape `(batch, pos)` is a `List (List ℤ)` (or `List (List ℚ)`);
* the external model (a `HookedTransformer`) is an abstract function
  `List (List ℤ) → List (List ℚ)` mapping a batch of token rows to a batch of
  per-token-loss rows, as in the model collaborator contract;
* Python exceptions are `Except`, fatal `assert` failures are `Option.none`.
-/

namespace ActAdd

/-! ## Corpus builder: `corpus_to_token_batches` -/

/-- Embedding of `torch.arange(0, stop, step)` for nonnegative bounds:
the multiples of `step` that are strictly below `stop`.  A negative Python
`stop` is truncated subtraction on `ℕ` at every call site, matching the
empty result of `arange` there. -/
def arange0 (stop step : ℕ) : List ℕ :=
  (List.range ((stop + step - 1) / step)).map (fun i => i * step)

/-- Embedding of the windowing core of `corpus_to_token_batches`: for one
label's concatenated token sequence, build
`inds = arange(context_len)[None,:] + arange(0, len - context_len, stride)[:,None]`
and gather `tokens[inds]`, i.e. take the `context_len`-token window at each
start offset produced by `arange(0, len - context_len, stride)`. -/
def token_snippets (tokens : List ℤ) (context_len stride : ℕ) : List (List ℤ) :=
  (arange0 (tokens.length - context_len) stride).map
    (fun off => ((tokens.drop off).take context_len))

/-! ## `AlignedTokensDataset` -/

/-- One entry of the `tokens_by_label` mapping: a label together with its
stacked token snippets (rows of the per-label tensor).  A `dict` iterates in
insertion order, so the mapping is embedded as a list of entries. -/
structure LabelTokens where
  label : String
  tokens : List (List ℤ)
deriving Repr, DecidableEq

/-- The alignment value chosen for a label in `AlignedTokensDataset.__init__`:
`1` if `label in aligned_labels`, else `-1` if
`opposed_labels is not None and label in opposed_labels`, else `0`. -/
def tag_of_label (aligned_labels : List String)
    (opposed_labels : Option (List String)) (label : String) : ℤ :=
  if label ∈ aligned_labels then 1
  else
    match opposed_labels with
    | some ls => if label ∈ ls then -1 else 0
    | none => 0

/-- `self.tokens`: the per-label snippet tensors concatenated along dim 0,
in mapping order. -/
def dataset_tokens (tbl : List LabelTokens) : List (List ℤ) :=
  (tbl.map LabelTokens.tokens).flatten

/-- `self.aligned`: for each label, `t.full_like(tokens[:, 0], aligned_val)`
(one copy of the label's alignment value per snippet row), concatenated in
the same order as `dataset_tokens`. -/
def dataset_aligned (aligned_labels : List String)
    (opposed_labels : Option (List String)) (tbl : List LabelTokens) : List ℤ :=
  (tbl.map (fun e =>
    List.replicate e.tokens.length
      (tag_of_label aligned_labels opposed_labels e.label))).flatten

/-- Embedding of the baseline-loss loop of `AlignedTokensDataset.__init__`:
`for start_idx in range(0, n, batch_size)`, run the model on
`tokens[start_idx : start_idx + batch_size]` and concatenate the per-token
losses. -/
def normal_loss_batches (f : List (List ℤ) → List (List ℚ))
    (tokens : List (List ℤ)) (batch_size : ℕ) : List (List ℚ) :=
  ((arange0 tokens.length batch_size).map
    (fun s => f ((tokens.drop s).take batch_size))).flatten

/-- The state of a constructed `AlignedTokensDataset`. -/
structure AlignedTokensDataset where
  tokens : List (List ℤ)
  aligned : List ℤ
  normal_loss : Option (List (List ℚ))
deriving Repr

/-- Embedding of `AlignedTokensDataset.__init__`.  The two `assert`
statements are fatal on failure, so construction returns `none` when either
shape check fails. -/
def mk_dataset (tbl : List LabelTokens) (aligned_labels : List String)
    (opposed_labels : Option (List String))
    (model : Option (List (List ℤ) → List (List ℚ)))
    (batch_size : ℕ) : Option AlignedTokensDataset :=
  let tokens := dataset_tokens tbl
  let aligned := dataset_aligned aligned_labels opposed_labels tbl
  if tokens.length = aligned.length then
    match model with
    | some f =>
      let nl := normal_loss_batches f tokens batch_size
      if tokens.length = nl.length then
        some ⟨tokens, aligned, some nl⟩
      else
        none
    | none => some ⟨tokens, aligned, none⟩
  else
    none

/-! ## Steering vector trainer: the per-batch loss of `learn_activation_addition` -/

/-- One element of a mini-batch produced by the `DataLoader`: the snippet's
alignment tag (`batch["aligned"]`), the per-token loss of the hooked forward
pass for this row (`loss_per_token`), and the cached baseline loss for this
row (`batch["normal_loss"]`). -/
structure BatchRow where
  tag : ℤ
  loss_per_token : List ℚ
  normal_loss : List ℚ
deriving Repr, DecidableEq

/-- `relative_loss = loss_per_token - batch["normal_loss"]`, element-wise,
for one row. -/
def relative_loss (r : BatchRow) : List ℚ :=
  List.zipWith (fun a b => a - b) r.loss_per_token r.normal_loss

/-- `relative_loss[batch["aligned"] == c, :].sum()`: the sum of all
relative-loss entries of the rows whose tag is `c`. -/
def tag_sum (batch : List BatchRow) (c : ℤ) : ℚ :=
  ((batch.filter (fun r => r.tag = c)).map (fun r => (relative_loss r).sum)).sum

/-- `t.abs(relative_loss[batch["aligned"] == 0, :]).sum()`: the sum of the
absolute values of the neutral rows' relative-loss entries. -/
def neutral_abs_sum (batch : List BatchRow) : ℚ :=
  ((batch.filter (fun r => r.tag = 0)).map
    (fun r => ((relative_loss r).map (fun x => |x|)).sum)).sum

/-- The neutral term of the three-part loss: `neutral_loss_beta * t.abs(…sum())`
when `neutral_loss_method == "abs_of_mean"`, else
`neutral_loss_beta * t.abs(…).sum()`. -/
def neutral_penalty (method : String) (beta : ℚ) (batch : List BatchRow) : ℚ :=
  if method = "abs_of_mean" then beta * |tag_sum batch 0|
  else beta * neutral_abs_sum batch

/-- `relative_loss.numel()`: the total number of scalar entries of the
batch's relative-loss tensor. -/
def batch_numel (batch : List BatchRow) : ℕ :=
  (batch.map (fun r => (relative_loss r).length)).sum

/-- The scalar training loss computed for one mini-batch in the epoch loop of
`learn_activation_addition`: aligned sum, minus opposed sum, plus neutral
penalty, divided by `relative_loss.numel()`. -/
def train_loss (method : String) (beta : ℚ) (batch : List BatchRow) : ℚ :=
  (tag_sum batch 1 - tag_sum batch (-1) + neutral_penalty method beta batch)
    / (batch_numel batch : ℚ)

/-- The mini-batches a `DataLoader` with `drop_last=False` (the default)
forms from an (already shuffled) dataset: consecutive chunks of
`batch_size` rows, the last chunk possibly shorter. -/
def chunk_batches {α : Type} (l : List α) (batch_size : ℕ) : List (List α) :=
  (arange0 l.length batch_size).map (fun s => (l.drop s).take batch_size)

/-! ## The injection hook `hook_fn` -/

/-- Embedding of `hook_fn`: `activation[:, 0, :] += steering_vector` then
`return activation`.  The activation tensor of shape
`(batch, pos, d_model)` is a `List (List (List ℚ))`; for every batch row the
`d_model`-vector at sequence position 0 gets the steering vector added,
all later positions are kept. -/
def hook_fn (steering_vector : List ℚ)
    (activation : List (List (List ℚ))) : List (List (List ℚ)) :=
  activation.map (fun seq =>
    match seq with
    | [] => []
    | pos0 :: rest => (List.zipWith (fun a b => a + b) pos0 steering_vector) :: rest)

/-! ## Control flow of `learn_activation_addition` -/

/-- Modelled from the spec: `model.hooks(fwd_hooks=[(act_name, hook_fn)])` is
a `transformer_lens` context manager whose implementation is not part of this
repository.  Per the spec's scoped-activation contract it registers the hook
on entry to the `with` block and removes it again on exit, both when the body
completes normally and when it raises (Python `with` semantics run `__exit__`
before the exception propagates).  The body is run with the hook registered;
the second component is the model's hook list after the `with` block. -/
def with_hooks {ε α : Type} (name : String)
    (body : List String → Except ε α) (hooks : List String) :
    Except ε α × List String :=
  let registered := hooks ++ [name]
  match body registered with
  | Except.ok a => (Except.ok a, hooks)
  | Except.error e => (Except.error e, hooks)

/-- Embedding of the logging-directory control flow of
`learn_activation_addition`: when `use_wandb` the run directory is created
(`os.mkdir(run_name)`) before the `with manager:` block; the statement
`if use_wandb: shutil.rmtree(run_name)` stands *after* the `with` block with
no `try/finally`, so it runs only when the epoch loop completed normally —
if the body raises, the context manager's `__exit__` ends the wandb run and
the exception propagates out of the function, skipping the `rmtree` line.
The second component records whether the run directory still exists when
`learn_activation_addition` exits. -/
def learn_flow {ε α : Type} (use_wandb : Bool) (body : Except ε α) :
    Except ε α × Bool :=
  let dir_exists := use_wandb
  match body with
  | Except.ok a => (Except.ok a, if use_wandb then false else dir_exists)
  | Except.error e => (Except.error e, dir_exists)

/-- Embedding of the full training loop of `learn_activation_addition` as a
pure function of its inputs and `seed`.  The source's randomness is exactly:
`t.manual_seed(seed)` followed by `t.randn(d_model)` for the vector
initialization (embedded as `randn seed d_model`), and a fresh
`t.Generator()` with `generator.manual_seed(seed)` driving the
`DataLoader`'s per-epoch shuffles (embedded as `shuffle seed epoch n`, a
permutation of row indices).  The backward pass plus one AdamW update is the
deterministic library function `step` acting on the steering vector and the
optimizer state (`opt0` its initial state); the hooked per-token forward
loss is folded into `step`'s dependence on the batch rows. -/
def learn_full {Item OptS : Type} [Inhabited Item]
    (randn : ℕ → ℕ → List ℚ)
    (shuffle : ℕ → ℕ → ℕ → List ℕ)
    (step : (List ℚ × OptS) → List Item → (List ℚ × OptS))
    (opt0 : OptS)
    (dataset : List Item)
    (num_epochs batch_size d_model seed : ℕ) : List ℚ :=
  let sv0 := randn seed d_model
  ((List.range num_epochs).foldl
    (fun st epoch =>
      let perm := shuffle seed epoch dataset.length
      let shuffled := perm.map (fun i => dataset.getD i default)
      (chunk_batches shuffled batch_size).foldl step st)
    (sv0, opt0)).1

/-! ## Metrics: `get_word_count_metric` -/

/-- A Python word character for `re` patterns: `\w = [a-zA-Z0-9_]`
(ASCII fragment); `\W` is its complement. -/
def isWordChar (c : Char) : Bool := c.isAlphanum || c = '_'

/-- The per-string body of the metric function returned by
`get_word_count_metric`: substitute every non-word character by a space
(`re.sub(r"\W", " ", str_this)`), split into words (`str_this.split()`,
which drops empty pieces), and total the counts of each target word
(`sum(toks.count(word) for word in words)`).  Strings are `List Char`. -/
def word_count_str (words : List (List Char)) (s : List Char) : ℕ :=
  let subbed := s.map (fun c => if isWordChar c then c else ' ')
  let toks := (subbed.splitOn ' ').filter (fun w => w ≠ [])
  (words.map (fun w => toks.count w)).sum

/-- Embedding of the metric function returned by `get_word_count_metric`:
the word list is lowercased up front unless `case_sensitive`, each input
string is lowercased for comparison unless `case_sensitive`, and the result
table `pd.Series(counts, index=strs, name="count").to_frame()` is the list
of (index entry, count) rows, one row per input element, indexed by the
*original* strings. -/
def get_word_count_metric (words : List (List Char)) (case_sensitive : Bool)
    (strs : List (List Char)) : List ((List Char) × ℕ) :=
  let words2 :=
    if case_sensitive then words else words.map (fun w => w.map Char.toLower)
  let strs_cmp :=
    if case_sensitive then strs else strs.map (fun s => s.map Char.toLower)
  List.zip strs (strs_cmp.map (fun s => word_count_str words2 s))

/-! ## Helper lemmas -/

/-- `arange0 stop step` has `⌈stop/step⌉ = (stop + step - 1) / step` entries. -/
lemma length_arange0 (stop step : ℕ) :
    (arange0 stop step).length = (stop + step - 1) / step := by
  simp [arange0]

/-- Every element of `arange0 stop step` is strictly below `stop`. -/
lemma mem_arange0_lt {stop step x : ℕ} (hstep : 0 < step)
    (hx : x ∈ arange0 stop step) : x < stop := by
  simp only [arange0, List.mem_map, List.mem_range] at hx
  obtain ⟨i, hi, rfl⟩ := hx
  have h1 : (i + 1) * step ≤ ((stop + step - 1) / step) * step :=
    Nat.mul_le_mul_right _ hi
  have h2 : ((stop + step - 1) / step) * step ≤ stop + step - 1 :=
    Nat.div_mul_le_self _ _
  have h3 : i * step + step ≤ stop + step - 1 := by
    have := le_trans h1 h2
    rwa [Nat.succ_mul] at this
  set m := i * step with hm
  omega

/-- The `i`-th element of `arange0 stop step` is `i * step`. -/
lemma getElem_arange0 (stop step : ℕ) (i : ℕ)
    (hi : i < (arange0 stop step).length) :
    (arange0 stop step)[i] = i * step := by
  simp [arange0]

/-- The aligned tensor always has exactly one entry per snippet row. -/
lemma aligned_length (al : List String) (ol : Option (List String))
    (tbl : List LabelTokens) :
    (dataset_aligned al ol tbl).length = (dataset_tokens tbl).length := by
  simp [dataset_aligned, dataset_tokens, List.length_flatten, List.map_map,
    Function.comp_def]

/-- Summing a function that is constantly `L` on the members of a list
gives `length * L`. -/
lemma sum_map_const_on {α : Type} (l : List α) (g : α → ℕ) (L : ℕ)
    (h : ∀ x ∈ l, g x = L) : (l.map g).sum = l.length * L := by
  induction l with
  | nil => simp
  | cons a tl ih =>
    have ha : g a = L := h a (by simp)
    have ht : (tl.map g).sum = tl.length * L :=
      ih (fun x hx => h x (by simp [hx]))
    simp [ha, ht, Nat.succ_mul, Nat.add_comm]

/-! ## C2: windowing in `corpus_to_token_batches` -/

/-- C2 (counterexample): the claimed snippet count `⌊(N−L)/S⌋ + 1` for
`N ≥ L` fails at `N = L`: a 2-token sequence with `context_len = 2`,
`stride = 1` produces 0 snippets, not `⌊0/1⌋ + 1 = 1`. -/
theorem C2_counterexample :
    ¬ ((token_snippets [1, 2] 2 1).length = (2 - 2) / 1 + 1) := by
  decide

/-- C2 (amended): with `N` tokens, `context_len = L`, `stride = S > 0`,
`corpus_to_token_batches` produces exactly `⌈(N−L)/S⌉` snippets (so 0 when
`N ≤ L`, windows being generated at offsets `0, S, 2S, …` while
`offset + L < N`, strictly); the `i`-th snippet equals tokens
`[i*S : i*S+L]` of the concatenated sequence and has length `L`. -/
theorem C2_windowing (tokens : List ℤ) (L S : ℕ) (hS : 0 < S) :
    (token_snippets tokens L S).length = (tokens.length - L + S - 1) / S ∧
    (∀ i : ℕ, ∀ hi : i < (token_snippets tokens L S).length,
      (token_snippets tokens L S)[i] = (tokens.drop (i * S)).take L) ∧
    (∀ s ∈ token_snippets tokens L S, s.length = L) := by
  refine ⟨?_, ?_, ?_⟩
  · simp [token_snippets, length_arange0]
  · intro i hi
    simp only [token_snippets] at hi ⊢
    rw [List.getElem_map, getElem_arange0]
  · intro s hs
    simp only [token_snippets, List.mem_map] at hs
    obtain ⟨off, hoff, rfl⟩ := hs
    have hlt : off < tokens.length - L := mem_arange0_lt hS hoff
    have hle : off + L ≤ tokens.length := by omega
    simp only [List.length_take, List.length_drop]
    omega

/-- C2 witness: for the 6-token sequence `[1,2,3,4,5,6]` with `L = 4`,
`S = 2` there is exactly `⌈2/2⌉ = 1` snippet, it is `[1,2,3,4]`, and it has
length 4. -/
theorem C2_windowing_witness :
    (token_snippets [1, 2, 3, 4, 5, 6] 4 2).length = (6 - 4 + 2 - 1) / 2 ∧
    (∀ i : ℕ, ∀ hi : i < (token_snippets [1, 2, 3, 4, 5, 6] 4 2).length,
      (token_snippets [1, 2, 3, 4, 5, 6] 4 2)[i] =
        (([1, 2, 3, 4, 5, 6] : List ℤ).drop (i * 2)).take 4) ∧
    (∀ s ∈ token_snippets [1, 2, 3, 4, 5, 6] 4 2, s.length = 4) :=
  C2_windowing [1, 2, 3, 4, 5, 6] 4 2 (by decide)

/-! ## C5: alignment tagging -/

/-- The source label of each snippet, in dataset (concatenation) order:
snippet `i` of the dataset came from the label entry whose block contains
position `i`. -/
def snippet_labels (tbl : List LabelTokens) : List String :=
  (tbl.map (fun e => List.replicate e.tokens.length e.label)).flatten

/-- C5: every snippet receives exactly one alignment tag (the aligned tensor
has exactly one entry per snippet), the tag is determined solely by the
snippet's source label via `tag_of_label`, and for every label the chosen
tag is exactly one of `+1` (label aligned), `-1` (opposed labels supplied
and label opposed, label not aligned), `0` (neither) — so the three tag
classes partition the dataset. -/
theorem C5_tagging (al : List String) (ol : Option (List String))
    (tbl : List LabelTokens) :
    (dataset_aligned al ol tbl).length = (dataset_tokens tbl).length ∧
    dataset_aligned al ol tbl = (snippet_labels tbl).map (tag_of_label al ol) ∧
    ∀ label : String,
      (tag_of_label al ol label = 1 ↔ label ∈ al) ∧
      (tag_of_label al ol label = -1 ↔
        label ∉ al ∧ ∃ ls, ol = some ls ∧ label ∈ ls) ∧
      (tag_of_label al ol label = 0 ↔
        label ∉ al ∧ ∀ ls, ol = some ls → label ∉ ls) := by
  refine ⟨aligned_length al ol tbl, ?_, ?_⟩
  · simp [dataset_aligned, snippet_labels, List.map_flatten, List.map_map,
      Function.comp_def, List.map_replicate]
  · intro label
    rcases ol with _ | ls
    · by_cases hal : label ∈ al <;> simp [tag_of_label, hal]
    · by_cases hal : label ∈ al
      · simp [tag_of_label, hal]
      · by_cases hop : label ∈ ls <;> simp [tag_of_label, hal, hop]

/-- C5 witness: the tagging facts at a concrete dataset with one aligned,
one opposed and one neutral label. -/
theorem C5_tagging_witness :
    (dataset_aligned ["A"] (some ["B"]) [⟨"A", [[1, 2]]⟩, ⟨"B", [[3, 4]]⟩, ⟨"C", [[5, 6]]⟩]).length =
      (dataset_tokens [⟨"A", [[1, 2]]⟩, ⟨"B", [[3, 4]]⟩, ⟨"C", [[5, 6]]⟩]).length ∧
    dataset_aligned ["A"] (some ["B"]) [⟨"A", [[1, 2]]⟩, ⟨"B", [[3, 4]]⟩, ⟨"C", [[5, 6]]⟩] =
      (snippet_labels [⟨"A", [[1, 2]]⟩, ⟨"B", [[3, 4]]⟩, ⟨"C", [[5, 6]]⟩]).map
        (tag_of_label ["A"] (some ["B"])) ∧
    ∀ label : String,
      (tag_of_label ["A"] (some ["B"]) label = 1 ↔ label ∈ ["A"]) ∧
      (tag_of_label ["A"] (some ["B"]) label = -1 ↔
        label ∉ ["A"] ∧ ∃ ls, (some ["B"] : Option (List String)) = some ls ∧ label ∈ ls) ∧
      (tag_of_label ["A"] (some ["B"]) label = 0 ↔
        label ∉ ["A"] ∧ ∀ ls, (some ["B"] : Option (List String)) = some ls → label ∉ ls) :=
  C5_tagging ["A"] (some ["B"]) [⟨"A", [[1, 2]]⟩, ⟨"B", [[3, 4]]⟩, ⟨"C", [[5, 6]]⟩]

/-! ## C3: baseline-loss shape invariant -/

/-- C3: when `AlignedTokensDataset` is constructed with a model (embedded as
`f`, which per the model collaborator contract returns per-token-loss rows
of length `context_len = L`), a construction that passes the fatal shape
`assert` (i.e. returns `some d`) caches a baseline-loss tensor with exactly
one row per snippet, every row of length `L`, equal to the length of every
token snippet. -/
theorem C3_baseline_shape (tbl : List LabelTokens) (al : List String)
    (ol : Option (List String)) (f : List (List ℤ) → List (List ℚ))
    (bs L : ℕ) (d : AlignedTokensDataset)
    (hmk : mk_dataset tbl al ol (some f) bs = some d)
    (hrow : ∀ b : List (List ℤ), ∀ r ∈ f b, r.length = L)
    (hsnip : ∀ s ∈ dataset_tokens tbl, s.length = L) :
    ∃ nl, d.normal_loss = some nl ∧
      nl.length = d.tokens.length ∧
      (∀ r ∈ nl, r.length = L) ∧
      (∀ s ∈ d.tokens, s.length = L) := by
  simp only [mk_dataset] at hmk
  rw [if_pos (aligned_length al ol tbl).symm] at hmk
  by_cases hlen : (dataset_tokens tbl).length =
      (normal_loss_batches f (dataset_tokens tbl) bs).length
  · rw [if_pos hlen] at hmk
    obtain rfl : AlignedTokensDataset.mk (dataset_tokens tbl)
        (dataset_aligned al ol tbl)
        (some (normal_loss_batches f (dataset_tokens tbl) bs)) = d :=
      Option.some.inj hmk
    refine ⟨normal_loss_batches f (dataset_tokens tbl) bs, rfl, hlen.symm, ?_, hsnip⟩
    intro r hr
    simp only [normal_loss_batches, List.mem_flatten, List.mem_map] at hr
    obtain ⟨lsub, ⟨s, _, rfl⟩, hrmem⟩ := hr
    exact hrow _ r hrmem
  · rw [if_neg hlen] at hmk
    exact absurd hmk (by simp)

/-- C3 witness: a concrete one-label dataset with a model returning rows of
length 2 yields a cached baseline tensor of one length-2 row. -/
theorem C3_baseline_shape_witness :
    ∃ nl, (AlignedTokensDataset.mk [[1, 2]] [1] (some [[0, 0]])).normal_loss = some nl ∧
      nl.length = (AlignedTokensDataset.mk [[1, 2]] [1] (some [[0, 0]])).tokens.length ∧
      (∀ r ∈ nl, r.length = 2) ∧
      (∀ s ∈ (AlignedTokensDataset.mk [[1, 2]] [1] (some [[0, 0]])).tokens, s.length = 2) :=
  C3_baseline_shape [⟨"A", [[1, 2]]⟩] ["A"] none
    (fun b => b.map (fun _ => [0, 0])) 2 2
    (AlignedTokensDataset.mk [[1, 2]] [1] (some [[0, 0]]))
    (by rfl)
    (by
      intro b r hr
      simp only [List.mem_map] at hr
      obtain ⟨x, _, rfl⟩ := hr
      rfl)
    (by decide)

/-! ## C1: the three-part training loss -/

/-- C1 (counterexample): the loss is divided by `relative_loss.numel()`, not
by `batch_size * context_len`.  With a 3-snippet dataset and
`batch_size = 2` the `DataLoader` (default `drop_last=False`) emits a final
mini-batch of a single row; with `context_len`-long loss rows of length 1,
that batch's loss is divided by `1 * 1 = 1`, not by `batch_size * 1 = 2`. -/
theorem C1_counterexample :
    (chunk_batches [BatchRow.mk 1 [1] [0], BatchRow.mk 1 [1] [0],
        BatchRow.mk 1 [1] [0]] 2).getD 1 [] = [BatchRow.mk 1 [1] [0]] ∧
    ¬ (train_loss "abs_of_mean" 1 [BatchRow.mk 1 [1] [0]] =
        (tag_sum [BatchRow.mk 1 [1] [0]] 1 - tag_sum [BatchRow.mk 1 [1] [0]] (-1)
          + neutral_penalty "abs_of_mean" 1 [BatchRow.mk 1 [1] [0]]) / ((2 * 1 : ℕ) : ℚ)) := by
  constructor
  · rfl
  · norm_num [train_loss, tag_sum, relative_loss, List.filter, neutral_penalty,
      batch_numel, neutral_abs_sum]

/-- C1 (amended): for every mini-batch, the scalar training loss equals
`sum(relative_loss where tag == +1) − sum(relative_loss where tag == −1)`
plus the neutral penalty (`beta * |sum|` for `abs_of_mean`, else
`beta * sum(|·|)`), with `relative_loss = loss_per_token − baseline_loss`
element-wise, divided by the total number of scalar loss entries of the
batch — which equals `rows_in_batch * context_len` when every loss row has
`context_len` entries; this is `batch_size * context_len` for full batches,
but the final `DataLoader` batch may hold fewer than `batch_size` rows. -/
theorem C1_loss (method : String) (beta : ℚ) (batch : List BatchRow) (B L : ℕ)
    (hB : batch.length = B)
    (hL : ∀ r ∈ batch, r.loss_per_token.length = L ∧ r.normal_loss.length = L) :
    train_loss method beta batch =
      (tag_sum batch 1 - tag_sum batch (-1)
        + (if method = "abs_of_mean" then beta * |tag_sum batch 0|
            else beta * neutral_abs_sum batch)) / ((B * L : ℕ) : ℚ) := by
  have hnum : batch_numel batch = B * L := by
    rw [batch_numel, sum_map_const_on batch _ L, hB]
    intro r hr
    obtain ⟨h1, h2⟩ := hL r hr
    simp [relative_loss, h1, h2]
  rw [train_loss, neutral_penalty, hnum]

/-- C1 witness: a concrete full batch of two length-1 rows, one aligned and
one neutral, under `abs_of_mean`. -/
theorem C1_loss_witness :
    train_loss "abs_of_mean" 1 [BatchRow.mk 1 [2] [1], BatchRow.mk 0 [4] [1]] =
      (tag_sum [BatchRow.mk 1 [2] [1], BatchRow.mk 0 [4] [1]] 1
        - tag_sum [BatchRow.mk 1 [2] [1], BatchRow.mk 0 [4] [1]] (-1)
        + (if "abs_of_mean" = "abs_of_mean"
            then 1 * |tag_sum [BatchRow.mk 1 [2] [1], BatchRow.mk 0 [4] [1]] 0|
            else 1 * neutral_abs_sum [BatchRow.mk 1 [2] [1], BatchRow.mk 0 [4] [1]]))
        / ((2 * 1 : ℕ) : ℚ) :=
  C1_loss "abs_of_mean" 1 [BatchRow.mk 1 [2] [1], BatchRow.mk 0 [4] [1]] 2 1
    (by rfl) (by decide)

/-! ## C9: zero-member tag robustness -/

/-- C9: in a batch with no snippet of tag `c ∈ {+1, −1, 0}`, the loss term
for `c` is a sum over the empty selection and is exactly 0 (for `c = 0` the
whole neutral penalty vanishes under either method); the computation is a
total function, so it neither raises nor produces NaN. -/
theorem C9_empty_tag (method : String) (beta : ℚ) (batch : List BatchRow)
    (c : ℤ) (h : ∀ r ∈ batch, r.tag ≠ c) :
    tag_sum batch c = 0 ∧
    (c = 0 → neutral_penalty method beta batch = 0) := by
  have hfilter : batch.filter (fun r => r.tag = c) = [] := by
    rw [List.filter_eq_nil_iff]
    intro r hr
    simp [h r hr]
  constructor
  · rw [tag_sum, hfilter]
    rfl
  · intro hc
    subst hc
    rw [neutral_penalty, tag_sum, neutral_abs_sum, hfilter]
    simp

/-- C9 witness: a batch with an aligned and a neutral row but no opposed
row has opposed term exactly 0. -/
theorem C9_empty_tag_witness :
    tag_sum [BatchRow.mk 1 [2] [1], BatchRow.mk 0 [4] [1]] (-1) = 0 ∧
    ((-1 : ℤ) = 0 →
      neutral_penalty "abs_of_mean" 1 [BatchRow.mk 1 [2] [1], BatchRow.mk 0 [4] [1]] = 0) :=
  C9_empty_tag "abs_of_mean" 1 [BatchRow.mk 1 [2] [1], BatchRow.mk 0 [4] [1]] (-1)
    (by decide)

/-! ## C4: effect of the injection hook -/

/-- Reading the hooked activation at batch row `b`: `hook_fn` acts on each
batch row independently, turning `seq` into its per-row transform. -/
lemma hook_fn_getD (sv : List ℚ) (acts : List (List (List ℚ))) (b : ℕ) :
    (hook_fn sv acts).getD b [] =
      match acts.getD b [] with
      | [] => []
      | pos0 :: rest => (List.zipWith (fun a c => a + c) pos0 sv) :: rest := by
  simp only [hook_fn, List.getD_eq_getElem?_getD, List.getElem?_map]
  cases h : acts[b]? with
  | none => simp
  | some seq => cases seq <;> simp

/-- C4: `hook_fn` keeps the batch dimension, adds the steering vector to the
activation at sequence position 0 of every batch row (broadcast over the
batch), and leaves the activation at every other sequence position
unchanged. -/
theorem C4_hook (sv : List ℚ) (acts : List (List (List ℚ))) :
    (hook_fn sv acts).length = acts.length ∧
    (∀ b j : ℕ, j ≠ 0 →
      ((hook_fn sv acts).getD b []).getD j [] = (acts.getD b []).getD j []) ∧
    (∀ b : ℕ, acts.getD b [] ≠ [] →
      ((hook_fn sv acts).getD b []).getD 0 [] =
        List.zipWith (fun a c => a + c) ((acts.getD b []).getD 0 []) sv) := by
  refine ⟨by simp [hook_fn], ?_, ?_⟩
  · intro b j hj
    rw [hook_fn_getD]
    cases h : acts.getD b [] with
    | nil => simp
    | cons p0 rest =>
      cases j with
      | zero => exact absurd rfl hj
      | succ n => simp
  · intro b hne
    rw [hook_fn_getD]
    cases h : acts.getD b [] with
    | nil => exact absurd h hne
    | cons p0 rest => simp

/-- C4 witness: a concrete 1-row, 2-position, 1-dimensional activation. -/
theorem C4_hook_witness :
    (hook_fn [1] [[[10], [20]]]).length = ([[[10], [20]]] : List (List (List ℚ))).length ∧
    (∀ b j : ℕ, j ≠ 0 →
      ((hook_fn [1] [[[10], [20]]]).getD b []).getD j [] =
        (([[[10], [20]]] : List (List (List ℚ))).getD b []).getD j []) ∧
    (∀ b : ℕ, ([[[10], [20]]] : List (List (List ℚ))).getD b [] ≠ [] →
      ((hook_fn [1] [[[10], [20]]]).getD b []).getD 0 [] =
        List.zipWith (fun a c => a + c)
          ((([[[10], [20]]] : List (List (List ℚ))).getD b []).getD 0 []) [1]) :=
  C4_hook [1] [[[10], [20]]]

/-! ## C6: scoped hook registration -/

/-- C6: during the epoch loop (the body of `with model.hooks(...)`) the
injection hook is registered; after the `with` block the model's hook list
is exactly what it was before, both when the body returns and when it
raises, and the body's outcome (value or exception) is passed through
unchanged — so a model without the hook beforehand does not have it
afterward, on every exit path. -/
theorem C6_hook_scope {ε α : Type} (name : String)
    (body : List String → Except ε α) (hooks : List String)
    (h : name ∉ hooks) :
    (with_hooks name body hooks).1 = body (hooks ++ [name]) ∧
    (with_hooks name body hooks).2 = hooks ∧
    name ∉ (with_hooks name body hooks).2 := by
  have hcase : with_hooks name body hooks = (body (hooks ++ [name]), hooks) := by
    simp only [with_hooks]
    cases body (hooks ++ [name]) <;> rfl
  rw [hcase]
  exact ⟨rfl, rfl, h⟩

/-- C6 witness: a forward pass that raises mid-epoch still leaves the model
hook-free after the call. -/
theorem C6_hook_scope_witness :
    (with_hooks "blocks.0.hook_resid_pre"
        (fun _ => (Except.error () : Except Unit Unit)) []).1 =
      (fun _ => (Except.error () : Except Unit Unit)) ([] ++ ["blocks.0.hook_resid_pre"]) ∧
    (with_hooks "blocks.0.hook_resid_pre"
        (fun _ => (Except.error () : Except Unit Unit)) []).2 = [] ∧
    "blocks.0.hook_resid_pre" ∉ (with_hooks "blocks.0.hook_resid_pre"
        (fun _ => (Except.error () : Except Unit Unit)) []).2 :=
  C6_hook_scope "blocks.0.hook_resid_pre"
    (fun _ => Except.error ()) [] (by simp)

/-! ## C7: run-directory cleanup -/

/-- C7 (counterexample): with `use_wandb = true` and a body that raises, the
run directory still exists when `learn_activation_addition` exits — the
`shutil.rmtree(run_name)` line after the `with` block is skipped by the
propagating exception. -/
theorem C7_counterexample :
    ¬ ((learn_flow (ε := Unit) (α := Unit) true (Except.error ())).2 = false) := by
  decide

/-- C7 (amended): if logging was started, the local run directory is removed
when `learn_activation_addition` returns normally; when an exception from
the epoch loop propagates out, the `rmtree` statement after the `with`
block is skipped and the directory is left behind (the wandb run itself is
still closed by the context manager). -/
theorem C7_cleanup {ε α : Type} (use_wandb : Bool) :
    (∀ a : α, (learn_flow (ε := ε) use_wandb (Except.ok a)).2 = false) ∧
    (∀ e : ε, (learn_flow (α := α) use_wandb (Except.error e)).2 = use_wandb) := by
  constructor
  · intro a
    cases use_wandb <;> rfl
  · intro e
    rfl

/-- C7 witness: the concrete outcomes with logging enabled. -/
theorem C7_cleanup_witness :
    (∀ a : Unit, (learn_flow (ε := Unit) true (Except.ok a)).2 = false) ∧
    (∀ e : Unit, (learn_flow (α := Unit) true (Except.error e)).2 = true) :=
  C7_cleanup true

/-! ## C8: determinism of the training run -/

/-- C8: two runs of the training loop with identical inputs and the same
`seed` produce identical trained vectors — the embedded loop threads all
randomness (vector initialization and per-epoch batch shuffling) through
deterministic seed-indexed functions, mirroring `t.manual_seed(seed)` and
`generator.manual_seed(seed)` in the source, which has no other randomness
source. -/
theorem C8_determinism {Item OptS : Type} [Inhabited Item]
    (randn : ℕ → ℕ → List ℚ) (shuffle : ℕ → ℕ → ℕ → List ℕ)
    (step : (List ℚ × OptS) → List Item → (List ℚ × OptS)) (opt0 : OptS)
    (dataset : List Item) (num_epochs batch_size d_model : ℕ)
    (seed1 seed2 : ℕ) (h : seed1 = seed2) :
    learn_full randn shuffle step opt0 dataset num_epochs batch_size d_model seed1 =
      learn_full randn shuffle step opt0 dataset num_epochs batch_size d_model seed2 := by
  rw [h]

/-- C8 witness: two concrete runs with seed 0 coincide. -/
theorem C8_determinism_witness :
    learn_full (fun s d => List.replicate d (s : ℚ)) (fun _ _ n => List.range n)
      (fun st _ => st : (List ℚ × Unit) → List ℕ → (List ℚ × Unit)) ()
      [1, 2, 3] 2 2 4 0 =
    learn_full (fun s d => List.replicate d (s : ℚ)) (fun _ _ n => List.range n)
      (fun st _ => st : (List ℚ × Unit) → List ℕ → (List ℚ × Unit)) ()
      [1, 2, 3] 2 2 4 0 :=
  C8_determinism _ _ _ _ _ _ _ _ 0 0 rfl

/-! ## C10: metric table shape -/

/-- C10 (counterexample): the metric of `get_word_count_metric` indexes the
result by the input strings as given, one row per input *element*: the
duplicate input `["a", "a"]` yields two rows, not one row per distinct
input string. -/
theorem C10_counterexample :
    ¬ ((get_word_count_metric [] false [['a'], ['a']]).length =
        ([['a'], ['a']] : List (List Char)).dedup.length) := by
  decide

/-- C10 (amended): the metric function returned by `get_word_count_metric`
returns a table with exactly one row per input element, in input order,
indexed by the original input string at that position; when the input
strings are pairwise distinct this is exactly one row per distinct input
string. -/
theorem C10_rows (words : List (List Char)) (cs : Bool)
    (strs : List (List Char)) :
    (get_word_count_metric words cs strs).length = strs.length ∧
    (get_word_count_metric words cs strs).map Prod.fst = strs ∧
    (strs.Nodup →
      (get_word_count_metric words cs strs).length = strs.dedup.length) := by
  have hlen : (get_word_count_metric words cs strs).length = strs.length := by
    cases cs <;> simp [get_word_count_metric]
  refine ⟨hlen, ?_, ?_⟩
  · rw [get_word_count_metric]
    apply List.map_fst_zip
    cases cs <;> simp
  · intro hnd
    rw [hlen, List.dedup_eq_self.mpr hnd]

/-- C10 witness: two distinct inputs give a two-row table indexed by them. -/
theorem C10_rows_witness :
    (get_word_count_metric [['h', 'i']] false [['a'], ['b']]).length =
      ([['a'], ['b']] : List (List Char)).length ∧
    (get_word_count_metric [['h', 'i']] false [['a'], ['b']]).map Prod.fst =
      [['a'], ['b']] ∧
    (([['a'], ['b']] : List (List Char)).Nodup →
      (get_word_count_metric [['h', 'i']] false [['a'], ['b']]).length =
        ([['a'], ['b']] : List (List Char)).dedup.length) :=
  C10_rows [['h', 'i']] false [['a'], ['b']]

end ActAdd
